import Mathlib

/-
Verification of the django-kit-starter authentication guard
(apps/core/auth_backend.py, apps/core/middleware.py) and the
soft-delete / block audit layer (apps/core/querysets.py,
apps/core/managers.py, apps/core/services.py) against its
natural-language specification.

The embedding is shallow: Django model rows become Lean structures, a
table becomes a List, a queryset becomes a table together with a Bool
row filter, and `QuerySet.update` becomes a map over the matching rows
returning the matched-row count.  Wall-clock time is a natural number
(minutes); `timezone.now()` becomes an explicit `now` argument.
-/

set_option linter.unusedVariables false

namespace DK

/-- Log events emitted by CustomModelBackend (auth_backend.py): the
warning for an attempt on a locked account (line 30), the warning when an
account transitions to locked (line 84), the warning for a failed attempt
with the current counter (lines 87-89) and the info line for a successful
login (line 72). -/
inductive LogEvent where
  | lockedAttempt (username : String)
  | accountLocked (username : String)
  | failedAttempt (username : String) (attempts : Nat)
  | successfulLogin (username : String)
deriving DecidableEq

/-- Embeds the columns of apps.core.models.User (models.py lines 16-46)
that the authentication guard reads or writes.  `password` stands for the
stored credential: `check_password` is modelled as comparison with the
one plaintext that hashes to the stored hash.  Time is a Nat measured in
minutes; `locked_until = none` embeds SQL NULL. -/
structure AuthUser where
  username : String
  email : String
  password : String
  failed_login_attempts : Nat
  locked_until : Option Nat
  last_login_ip : Option String
deriving DecidableEq

/-- A Django session object as the guard and the middleware see it.
`data` holds the keys written by subscript assignment
(`request.session[k] = v`, SessionBase.__setitem__ into its internal
dict); `attrs` holds the Python attributes of the session object itself,
read by `getattr`.  These are distinct namespaces in Python: Django's
SessionBase defines no attribute named user_ip and does not forward
attribute access to the stored keys, so a session produced by the
middleware carries the IP in `data` only. -/
structure Session where
  data : List (String × String)
  attrs : List (String × String)
deriving DecidableEq

/-- `request.session[k]` (dict-key read, first write wins since writes cons). -/
def sessionGetItem (s : Session) (k : String) : Option String :=
  (s.data.find? fun p => p.1 == k).map fun p => p.2

/-- `getattr(request.session, k, None)` (attribute read with default None). -/
def sessionGetAttr (s : Session) (k : String) : Option String :=
  (s.attrs.find? fun p => p.1 == k).map fun p => p.2

/-- `request.session[k] = v` (dict-key write). -/
def sessionSetItem (s : Session) (k v : String) : Session :=
  { s with data := (k, v) :: s.data }

/-- The request context the guard receives: only its session matters to
the embedded code paths. -/
structure Request where
  session : Session
deriving DecidableEq

/-- UserIPMiddleware.__call__ line 22: `request.session["user_ip"] = user_ip`,
where `ip` is the value get_client_ip computed from the headers. -/
def middleware_store_ip (s : Session) (ip : String) : Session :=
  sessionSetItem s "user_ip" ip

/-- auth_backend.py line 79: `max_attempts = 3`. -/
def maxAttempts : Nat := 3

/-- auth_backend.py line 82: `lock_duration = timedelta(minutes=15)`. -/
def lockDurationMinutes : Nat := 15

/-- `user.check_password(password)` (auth_backend.py line 33): a secure
hash comparison, embedded as equality with the stored credential. -/
def checkPassword (u : AuthUser) (p : String) : Bool :=
  u.password == p

/-- CustomModelBackend._is_account_locked (auth_backend.py lines 40-53).
Returns the boolean the method returns together with the user state it
leaves persisted: the expired branch clears locked_until, zeroes
failed_login_attempts and saves both fields before returning False. -/
def isAccountLocked (u : AuthUser) (now : Nat) : Bool × AuthUser :=
  match u.locked_until with
  | none => (false, u)
  | some t =>
    if now > t then
      (false, { u with locked_until := none, failed_login_attempts := 0 })
    else
      (true, u)

/-- CustomModelBackend._handle_successful_login (auth_backend.py lines
55-72): zero the counter, clear the lock, and set last_login_ip when
`getattr(request.session, "user_ip", None)` is truthy (Python treats the
empty string as falsy).  The save lists failed_login_attempts,
locked_until and last_login_ip as update_fields. -/
def handleSuccessfulLogin (u : AuthUser) (req : Request) : AuthUser :=
  let u1 := { u with failed_login_attempts := 0, locked_until := none }
  match sessionGetAttr req.session "user_ip" with
  | some ip => if ip = "" then u1 else { u1 with last_login_ip := some ip }
  | none => u1

/-- CustomModelBackend._handle_failed_login (auth_backend.py lines
74-89): increment the counter; when it reaches max_attempts set
locked_until to now plus the 15-minute lock duration; save both fields. -/
def handleFailedLogin (u : AuthUser) (now : Nat) : AuthUser :=
  let u1 := { u with failed_login_attempts := u.failed_login_attempts + 1 }
  if u1.failed_login_attempts ≥ maxAttempts then
    { u1 with locked_until := some (now + lockDurationMinutes) }
  else
    u1

/-- The password stage of CustomModelBackend.authenticate (lines 33-38),
run on the user state _is_account_locked left behind: returns the
authenticated user or None, the persisted user state, and the log lines. -/
def authCheck (u : AuthUser) (now : Nat) (p : String) (req : Request) :
    Option AuthUser × AuthUser × List LogEvent :=
  if checkPassword u p then
    let u2 := handleSuccessfulLogin u req
    (some u2, u2, [LogEvent.successfulLogin u.username])
  else
    let u2 := handleFailedLogin u now
    (none, u2,
      (if u2.failed_login_attempts ≥ maxAttempts then
        [LogEvent.accountLocked u.username]
      else []) ++ [LogEvent.failedAttempt u.username u2.failed_login_attempts])

/-- Lines 29-38 of CustomModelBackend.authenticate, for one account that
the lookup already produced: the lock guard, then the password stage.
Log events carry the account's username; the source interpolates the
submitted identifier in the locked-account warning, which coincides with
it except when the login went through the email fallback — only the
presence and kind of the events matter to the properties below. -/
def authStep (u : AuthUser) (now : Nat) (p : String) (req : Request) :
    Option AuthUser × AuthUser × List LogEvent :=
  let lc := isAccountLocked u now
  if lc.1 then
    (none, lc.2, [LogEvent.lockedAttempt u.username])
  else
    authCheck lc.2 now p req

/-- The account lookup of authenticate lines 21-27: by username first,
then by email (usernames are unique, `get` is the first match). -/
def findUser (db : List AuthUser) (ident : String) : Option AuthUser :=
  match db.find? fun v => v.username == ident with
  | some v => some v
  | none => db.find? fun v => v.email == ident

/-- Persisting the updated row of one account back into the table. -/
def saveUser (db : List AuthUser) (orig upd : AuthUser) : List AuthUser :=
  db.map fun v => if v.username == orig.username then upd else v

/-- CustomModelBackend.authenticate (auth_backend.py lines 18-38) over a
user table: the empty-credential fast path (lines 19-20, Python falsiness
of the empty string), the two-stage lookup, then the per-account step.
Returns the result, the table afterwards, and the log lines. -/
def authenticate (db : List AuthUser) (now : Nat) (username password : String)
    (req : Request) : Option AuthUser × List AuthUser × List LogEvent :=
  if username = "" ∨ password = "" then
    (none, db, [])
  else
    match findUser db username with
    | none => (none, db, [])
    | some u =>
      let out := authStep u now password req
      (out.1, saveUser db u out.2.1, out.2.2)

/-- One authentication attempt against one account: its time, the
password offered, and the request context. -/
structure Attempt where
  now : Nat
  password : String
  req : Request

/-- A sequence of authentication attempts against the same account,
each persisting its state change before the next runs. -/
def runAttempts (u : AuthUser) (as : List Attempt) : AuthUser :=
  as.foldl (fun v a => (authStep v a.now a.password a.req).2.1) u

/-- A fresh account as the guard's state machine starts from it: no
failed attempts recorded and no lock pending. -/
def freshA (u : AuthUser) : Prop :=
  u.failed_login_attempts = 0 ∧ u.locked_until = none

/-- The lockout invariant of spec section 3: the counter stays in
[0, 3], and a counter of 3 has a lock timestamp set. -/
def lockInv (u : AuthUser) : Prop :=
  u.failed_login_attempts ≤ maxAttempts ∧
    (u.failed_login_attempts = maxAttempts → u.locked_until ≠ none)

/-- Embeds the lifecycle columns of an AuditModel row (models.py lines
49-122) that the soft-delete / block layer reads or writes.  `pk` stands
for the primary key; actors are their usernames. -/
structure Entity where
  pk : Nat
  deleted_at : Option Nat
  deleted_by : Option String
  blocked_at : Option Nat
  blocked_by : Option String
deriving DecidableEq

/-- BaseModel.is_deleted (models.py lines 64-68). -/
def is_deleted (r : Entity) : Bool :=
  r.deleted_at.isSome

/-- The row effect of `update(deleted_at=timezone.now(), deleted_by=user)`
(querysets.py line 15). -/
def softDeleteRec (now : Nat) (user : String) (r : Entity) : Entity :=
  { r with deleted_at := some now, deleted_by := some user }

/-- The row effect of `update(deleted_at=None, deleted_by=None)`
(querysets.py line 19). -/
def restoreRec (r : Entity) : Entity :=
  { r with deleted_at := none, deleted_by := none }

/-- The row effect of `update(blocked_at=timezone.now(), blocked_by=user)`
(querysets.py line 25). -/
def blockRec (now : Nat) (user : String) (r : Entity) : Entity :=
  { r with blocked_at := some now, blocked_by := some user }

/-- The row effect of `update(blocked_at=None, blocked_by=None)`
(querysets.py line 31). -/
def unblockRec (r : Entity) : Entity :=
  { r with blocked_at := none, blocked_by := none }

/-- `QuerySet.update` over a table: apply f to every row the queryset
filter matches and return how many rows matched (SQL UPDATE rowcount). -/
def qsUpdate (db : List Entity) (φ : Entity → Bool) (f : Entity → Entity) :
    Nat × List Entity :=
  ((db.filter φ).length, db.map fun r => if φ r then f r else r)

/-- BaseQuerySet.soft_delete (querysets.py lines 13-15). -/
def qs_soft_delete (db : List Entity) (φ : Entity → Bool) (now : Nat)
    (user : String) : Nat × List Entity :=
  qsUpdate db φ (softDeleteRec now user)

/-- BaseQuerySet.restore (querysets.py lines 17-19). -/
def qs_restore (db : List Entity) (φ : Entity → Bool) : Nat × List Entity :=
  qsUpdate db φ restoreRec

/-- BaseQuerySet.blocked (querysets.py lines 21-25). -/
def qs_blocked (db : List Entity) (φ : Entity → Bool) (now : Nat)
    (user : String) : Nat × List Entity :=
  qsUpdate db φ (blockRec now user)

/-- BaseQuerySet.unblocked (querysets.py lines 27-31). -/
def qs_unblocked (db : List Entity) (φ : Entity → Bool) : Nat × List Entity :=
  qsUpdate db φ unblockRec

/-- The filter of BaseQuerySet.not_deleted (querysets.py lines 39-43):
`deleted_at__isnull=True`. -/
def notDeletedF (r : Entity) : Bool :=
  r.deleted_at.isNone

/-- The filter of BaseQuerySet.deleted (querysets.py lines 45-49):
`deleted_at__isnull=False`. -/
def deletedF (r : Entity) : Bool :=
  r.deleted_at.isSome

/-- BaseManager.get_queryset (managers.py lines 16-17): the default
retrieval scope, `BaseQuerySet(...).not_deleted()` evaluated. -/
def manager_get_queryset (db : List Entity) : List Entity :=
  db.filter notDeletedF

/-- BaseManager.all_with_deleted (managers.py lines 19-23): the
unfiltered queryset evaluated. -/
def all_with_deleted (db : List Entity) : List Entity :=
  db

/-- BaseManager.deleted (managers.py lines 31-35) evaluated. -/
def manager_deleted (db : List Entity) : List Entity :=
  db.filter deletedF

/-- BaseManager.restore (managers.py lines 25-29):
`self.get_queryset().restore()`, an update over the default scope. -/
def manager_restore (db : List Entity) : Nat × List Entity :=
  qs_restore db notDeletedF

/-- The deleted-aware bulk restore `all_with_deleted().restore()`:
an update over the unfiltered queryset. -/
def all_with_deleted_restore (db : List Entity) : Nat × List Entity :=
  qs_restore db (fun _ => true)

/-- `instance.refresh_from_db()` after a pk-filtered update: reload the
row with the instance's pk (present whenever the instance is stored). -/
def refresh_from_db (inst : Entity) (db : List Entity) : Entity :=
  (db.find? fun r => r.pk == inst.pk).getD inst

/-- services.soft_delete_instance (services.py lines 6-20): short-circuit
when the in-memory instance is already deleted, otherwise soft-delete the
pk-filtered queryset over all_with_deleted and refresh. -/
def soft_delete_instance (inst : Entity) (db : List Entity) (now : Nat)
    (user : String) : Entity × List Entity :=
  if is_deleted inst then
    (inst, db)
  else
    let db2 := (qs_soft_delete (all_with_deleted db)
      (fun r => r.pk == inst.pk) now user).2
    (refresh_from_db inst db2, db2)

/-- services.restore_instance (services.py lines 23-37): short-circuit
when the instance is not deleted, otherwise restore the pk-filtered
queryset over all_with_deleted and refresh. -/
def restore_instance (inst : Entity) (db : List Entity) : Entity × List Entity :=
  if !is_deleted inst then
    (inst, db)
  else
    let db2 := (qs_restore (all_with_deleted db) (fun r => r.pk == inst.pk)).2
    (refresh_from_db inst db2, db2)

/-- services.bulk_soft_delete (services.py lines 68-75):
`queryset.soft_delete(user)` returning the rowcount. -/
def bulk_soft_delete (db : List Entity) (φ : Entity → Bool) (now : Nat)
    (user : String) : Nat × List Entity :=
  qs_soft_delete db φ now user

/-- services.bulk_restore (services.py lines 78-85):
`queryset.deleted().restore()` returning the rowcount — the filter is
narrowed to the deleted rows before the update. -/
def bulk_restore (db : List Entity) (φ : Entity → Bool) (user : String) :
    Nat × List Entity :=
  qs_restore db (fun r => φ r && deletedF r)

/-- Membership in the default retrieval scope: exactly the stored rows
whose deleted_at is NULL. -/
theorem mem_manager_get_queryset (db : List Entity) (r : Entity) :
    r ∈ manager_get_queryset db ↔ r ∈ db ∧ r.deleted_at = none := by
  simp [manager_get_queryset, notDeletedF, List.mem_filter,
    Option.isNone_iff_eq_none]

/-- A bulk soft delete removes from the default scope exactly the rows
the filter matched. -/
theorem manager_get_queryset_after_soft_delete (db : List Entity)
    (φ : Entity → Bool) (now : Nat) (user : String) :
    manager_get_queryset (qs_soft_delete db φ now user).2
      = (manager_get_queryset db).filter fun r => !(φ r) := by
  induction db with
  | nil => rfl
  | cons a l ih =>
    by_cases hφ : φ a
    · by_cases hd : a.deleted_at = none <;>
        simp_all [manager_get_queryset, qs_soft_delete, qsUpdate, notDeletedF,
          softDeleteRec, List.filter_cons]
    · by_cases hd : a.deleted_at = none <;>
        simp_all [manager_get_queryset, qs_soft_delete, qsUpdate, notDeletedF,
          List.filter_cons]

/-- C4: for every lifecycle-audited table, the default manager queryset
holds exactly the rows whose deleted_at is NULL; a deleted row is absent
from it but present in the all-with-deleted and deleted-only variants;
and since these are properties of an arbitrary table state, they hold
after every bulk soft_delete, restore, block and unblock. -/
theorem C4_default_scope_excludes_deleted :
    (∀ (db : List Entity) (r : Entity),
        r ∈ manager_get_queryset db ↔ r ∈ db ∧ r.deleted_at = none)
    ∧ (∀ (db : List Entity) (r : Entity), r ∈ db → r.deleted_at ≠ none →
        r ∉ manager_get_queryset db ∧ r ∈ all_with_deleted db ∧
          r ∈ manager_deleted db)
    ∧ (∀ (db : List Entity) (φ : Entity → Bool) (now : Nat) (user : String)
        (r : Entity),
        r ∈ manager_get_queryset (qs_soft_delete db φ now user).2 ↔
          r ∈ (qs_soft_delete db φ now user).2 ∧ r.deleted_at = none)
    ∧ (∀ (db : List Entity) (φ : Entity → Bool) (r : Entity),
        r ∈ manager_get_queryset (qs_restore db φ).2 ↔
          r ∈ (qs_restore db φ).2 ∧ r.deleted_at = none)
    ∧ (∀ (db : List Entity) (φ : Entity → Bool) (now : Nat) (user : String)
        (r : Entity),
        r ∈ manager_get_queryset (qs_blocked db φ now user).2 ↔
          r ∈ (qs_blocked db φ now user).2 ∧ r.deleted_at = none)
    ∧ (∀ (db : List Entity) (φ : Entity → Bool) (r : Entity),
        r ∈ manager_get_queryset (qs_unblocked db φ).2 ↔
          r ∈ (qs_unblocked db φ).2 ∧ r.deleted_at = none) := by
  refine ⟨mem_manager_get_queryset, ?_, ?_, ?_, ?_, ?_⟩
  · intro db r hr hd
    refine ⟨?_, hr, ?_⟩
    · rw [mem_manager_get_queryset]
      exact fun h => hd h.2
    · simp [manager_deleted, deletedF, List.mem_filter, Option.isSome_iff_ne_none,
        hr, hd]
  · intro db φ now user r; exact mem_manager_get_queryset _ r
  · intro db φ r; exact mem_manager_get_queryset _ r
  · intro db φ now user r; exact mem_manager_get_queryset _ r
  · intro db φ r; exact mem_manager_get_queryset _ r

/-- C5: a bulk soft delete returns the number of rows the filter matched
at call time; the default scope afterwards is the default scope before
with exactly the matched rows removed; and every matched row is stored
back with deleted_at = now and deleted_by = the acting user. -/
theorem C5_bulk_soft_delete_count_and_scope (db : List Entity)
    (φ : Entity → Bool) (now : Nat) (user : String) :
    (bulk_soft_delete db φ now user).1 = (db.filter φ).length
    ∧ manager_get_queryset (bulk_soft_delete db φ now user).2
        = (manager_get_queryset db).filter (fun r => !(φ r))
    ∧ (∀ r ∈ db, φ r = true →
        softDeleteRec now user r ∈ (bulk_soft_delete db φ now user).2)
    ∧ (∀ r : Entity, (softDeleteRec now user r).deleted_at = some now
        ∧ (softDeleteRec now user r).deleted_by = some user) := by
  refine ⟨rfl, manager_get_queryset_after_soft_delete db φ now user, ?_, ?_⟩
  · intro r hr hφ
    have h := List.mem_map_of_mem
      (fun r => if φ r then softDeleteRec now user r else r) hr
    simp only [hφ, ite_true] at h
    exact h
  · intro r
    exact ⟨rfl, rfl⟩

/-- C6: the single-instance transitions are guarded and idempotent while
the bulk queryset path is not: soft_delete_instance on an already-deleted
instance and restore_instance on a never-deleted instance return the
instance and the table unchanged, whereas the bulk soft_delete restamps
deleted_at and deleted_by on every matched row, including rows that were
already deleted (the last part has no already-deleted guard: it applies
to a matched row carrying any prior deleted_at and deleted_by). -/
theorem C6_single_guarded_bulk_unguarded :
    (∀ (inst : Entity) (db : List Entity) (now : Nat) (user : String),
        inst.deleted_at ≠ none →
          soft_delete_instance inst db now user = (inst, db))
    ∧ (∀ (inst : Entity) (db : List Entity),
        inst.deleted_at = none → restore_instance inst db = (inst, db))
    ∧ (∀ (db : List Entity) (φ : Entity → Bool) (now t0 : Nat)
        (user u0 : String) (r : Entity),
        r ∈ db → φ r = true → r.deleted_at = some t0 → r.deleted_by = some u0 →
          softDeleteRec now user r ∈ (qs_soft_delete db φ now user).2
          ∧ (softDeleteRec now user r).deleted_at = some now
          ∧ (softDeleteRec now user r).deleted_by = some user) := by
  refine ⟨?_, ?_, ?_⟩
  · intro inst db now user h
    simp [soft_delete_instance, is_deleted, Option.isSome_iff_ne_none, h]
  · intro inst db h
    simp [restore_instance, is_deleted, h]
  · intro db φ now t0 user u0 r hr hφ hd hb
    have h := List.mem_map_of_mem
      (fun r => if φ r then softDeleteRec now user r else r) hr
    simp only [hφ, ite_true] at h
    exact ⟨h, rfl, rfl⟩

/-- A pk-preserving per-row update commutes with looking a row up by pk:
the first matching row afterwards is the updated first matching row. -/
theorem find?_update_of_preserve (p : Entity → Bool) (g : Entity → Entity)
    (hg : ∀ r, p (g r) = p r) (l : List Entity) :
    (l.map fun r => if p r then g r else r).find? p
      = (l.find? p).map fun r => if p r then g r else r := by
  induction l with
  | nil => rfl
  | cons a l ih =>
    by_cases ha : p a
    · simp [List.find?_cons, ha, hg]
    · simp [List.find?_cons, ha, ih]

/-- C8: restore writes NULL into deleted_at and deleted_by and touches no
other column: per row the block fields and the pk are untouched, the bulk
path updates exactly the matched rows with that per-row effect, and the
instance path returns a refreshed instance whose block fields equal the
stored row's. -/
theorem C8_restore_frames_block_fields :
    (∀ r : Entity, (restoreRec r).deleted_at = none
      ∧ (restoreRec r).deleted_by = none
      ∧ (restoreRec r).blocked_at = r.blocked_at
      ∧ (restoreRec r).blocked_by = r.blocked_by
      ∧ (restoreRec r).pk = r.pk)
    ∧ (∀ (db : List Entity) (φ : Entity → Bool),
        (qs_restore db φ).2 = db.map fun r => if φ r then restoreRec r else r)
    ∧ (∀ (inst r0 : Entity) (db : List Entity),
        inst.deleted_at ≠ none →
        (db.find? fun r => r.pk == inst.pk) = some r0 →
          (restore_instance inst db).1 = restoreRec r0
          ∧ (restore_instance inst db).1.deleted_at = none
          ∧ (restore_instance inst db).1.deleted_by = none
          ∧ (restore_instance inst db).1.blocked_at = r0.blocked_at
          ∧ (restore_instance inst db).1.blocked_by = r0.blocked_by) := by
  refine ⟨fun r => ⟨rfl, rfl, rfl, rfl, rfl⟩, fun db φ => rfl, ?_⟩
  intro inst r0 db hd hf
  have hdel : is_deleted inst = true := by
    simp [is_deleted, Option.isSome_iff_ne_none, hd]
  have hmap := find?_update_of_preserve (fun r => r.pk == inst.pk) restoreRec
    (fun r => rfl) db
  have hp : (r0.pk == inst.pk) = true := by simpa using List.find?_some hf
  have hmain : (restore_instance inst db).1 = restoreRec r0 := by
    unfold restore_instance
    rw [hdel]
    show refresh_from_db inst
      ((qs_restore (all_with_deleted db) fun r => r.pk == inst.pk).2)
        = restoreRec r0
    unfold refresh_from_db qs_restore qsUpdate all_with_deleted
    rw [hmap, hf]
    show (if (r0.pk == inst.pk) = true then restoreRec r0 else r0) = restoreRec r0
    rw [if_pos hp]
  exact ⟨hmain, by rw [hmain]; rfl, by rw [hmain]; rfl, by rw [hmain]; rfl,
    by rw [hmain]; rfl⟩

/-- The manager-level bulk restore updates only rows the default scope
already shows, so the deleted-row set of the table does not change. -/
theorem manager_deleted_manager_restore (db : List Entity) :
    manager_deleted (manager_restore db).2 = manager_deleted db := by
  induction db with
  | nil => rfl
  | cons a l ih =>
    by_cases hd : a.deleted_at = none <;>
      simp_all [manager_deleted, manager_restore, qs_restore, qsUpdate,
        notDeletedF, deletedF, restoreRec, List.filter_cons]

/-- C10: BaseManager.restore runs the bulk restore over the default
queryset, which already excludes soft-deleted rows: the deleted-row set
is unchanged and every deleted row is still stored exactly as it was, so
it can never un-delete anything; restoring through all_with_deleted
clears deleted_at on every row, and the bulk_restore service restores
every matched deleted row. -/
theorem C10_manager_restore_never_undeletes :
    (∀ db : List Entity,
        manager_deleted (manager_restore db).2 = manager_deleted db)
    ∧ (∀ (db : List Entity) (r : Entity), r ∈ db → r.deleted_at ≠ none →
        r ∈ (manager_restore db).2)
    ∧ (∀ (db : List Entity) (r : Entity),
        r ∈ (all_with_deleted_restore db).2 → r.deleted_at = none)
    ∧ (∀ (db : List Entity) (φ : Entity → Bool) (user : String) (r : Entity),
        r ∈ db → φ r = true → r.deleted_at ≠ none →
          restoreRec r ∈ (bulk_restore db φ user).2) := by
  refine ⟨manager_deleted_manager_restore, ?_, ?_, ?_⟩
  · intro db r hr hd
    have hnd : notDeletedF r = false := by
      cases hv : r.deleted_at with
      | none => exact absurd hv hd
      | some v => simp [notDeletedF, hv]
    have h := List.mem_map_of_mem
      (fun r => if notDeletedF r then restoreRec r else r) hr
    simp only [hnd, ite_false] at h
    exact h
  · intro db r h
    simp only [all_with_deleted_restore, qs_restore, qsUpdate, ite_true,
      List.mem_map] at h
    rcases h with ⟨a, _, rfl⟩
    rfl
  · intro db φ user r hr hφ hd
    have hc : (φ r && deletedF r) = true := by
      cases hv : r.deleted_at with
      | none => exact absurd hv hd
      | some v => simp [hφ, deletedF, hv]
    have h := List.mem_map_of_mem
      (fun r => if (φ r && deletedF r) then restoreRec r else r) hr
    simp only [hc, ite_true] at h
    exact h

/-- With no lock timestamp set, the guard falls through to the password
stage unchanged. -/
theorem authStep_no_lock (u : AuthUser) (now : Nat) (p : String) (req : Request)
    (h : u.locked_until = none) :
    authStep u now p req = authCheck u now p req := by
  simp [authStep, isAccountLocked, h]

/-- A still-active lock refuses the attempt outright: no password check,
no state change, only the locked-account warning. -/
theorem authStep_locked (u : AuthUser) (now T : Nat) (p : String)
    (req : Request) (hT : u.locked_until = some T) (h : ¬ T < now) :
    authStep u now p req = (none, u, [LogEvent.lockedAttempt u.username]) := by
  simp [authStep, isAccountLocked, hT, h]

/-- An expired lock is cleared and the counter zeroed (both persisted by
the lines 47-51 save) before the password stage runs on the reset state. -/
theorem authStep_expired (u : AuthUser) (now T : Nat) (p : String)
    (req : Request) (hT : u.locked_until = some T) (h : T < now) :
    authStep u now p req
      = authCheck { u with locked_until := none, failed_login_attempts := 0 }
          now p req := by
  simp [authStep, isAccountLocked, hT, h]

/-- The password stage on a wrong password runs _handle_failed_login. -/
theorem authCheck_wrong (u : AuthUser) (now : Nat) (p : String) (req : Request)
    (h : u.password ≠ p) :
    authCheck u now p req = (none, handleFailedLogin u now,
      (if (handleFailedLogin u now).failed_login_attempts ≥ maxAttempts then
        [LogEvent.accountLocked u.username]
      else []) ++ [LogEvent.failedAttempt u.username
        (handleFailedLogin u now).failed_login_attempts]) := by
  simp [authCheck, checkPassword, h]

/-- The password stage on the correct password runs
_handle_successful_login and returns the user. -/
theorem authCheck_correct (u : AuthUser) (now : Nat) (p : String)
    (req : Request) (h : u.password = p) :
    authCheck u now p req = (some (handleSuccessfulLogin u req),
      handleSuccessfulLogin u req, [LogEvent.successfulLogin u.username]) := by
  simp [authCheck, checkPassword, h]

/-- The state _handle_successful_login persists: counter zeroed, lock
cleared, identity and credential untouched. -/
theorem handleSuccessfulLogin_fields (u : AuthUser) (req : Request) :
    (handleSuccessfulLogin u req).failed_login_attempts = 0
    ∧ (handleSuccessfulLogin u req).locked_until = none
    ∧ (handleSuccessfulLogin u req).username = u.username
    ∧ (handleSuccessfulLogin u req).password = u.password := by
  unfold handleSuccessfulLogin
  cases sessionGetAttr req.session "user_ip" with
  | none => exact ⟨rfl, rfl, rfl, rfl⟩
  | some ip => by_cases h : ip = "" <;> simp [h]

/-- The state _handle_failed_login persists: counter incremented, lock
set exactly when the new counter reaches max_attempts. -/
theorem handleFailedLogin_spec (u : AuthUser) (now : Nat) :
    (handleFailedLogin u now).failed_login_attempts
        = u.failed_login_attempts + 1
    ∧ (handleFailedLogin u now).locked_until
        = (if u.failed_login_attempts + 1 ≥ maxAttempts
            then some (now + lockDurationMinutes) else u.locked_until)
    ∧ (handleFailedLogin u now).username = u.username
    ∧ (handleFailedLogin u now).password = u.password := by
  unfold handleFailedLogin
  by_cases h : u.failed_login_attempts + 1 ≥ maxAttempts <;> simp [h]

/-- C9: an empty username or an empty password is refused immediately
with the generic invalid-credentials outcome (None): for every table
state the guard returns the refusal, leaves the table untouched and logs
nothing; the outcome is identical for every table, so no account lookup
is consulted. -/
theorem C9_empty_credentials_fast_path (db : List AuthUser) (now : Nat)
    (username password : String) (req : Request)
    (h : username = "" ∨ password = "") :
    authenticate db now username password req = (none, db, []) := by
  unfold authenticate
  rw [if_pos h]

/-- C9 at a concrete input: empty username, nonempty password, a
one-account table: refusal, table unchanged, no logs. -/
theorem C9_empty_credentials_fast_path_witness :
    authenticate [⟨"alice", "alice@example.com", "pw", 0, none, none⟩] 7 ""
        "secret" ⟨⟨[], []⟩⟩
      = (none, [⟨"alice", "alice@example.com", "pw", 0, none, none⟩], []) :=
  C9_empty_credentials_fast_path
    [⟨"alice", "alice@example.com", "pw", 0, none, none⟩] 7 "" "secret"
    ⟨⟨[], []⟩⟩ (Or.inl rfl)

/-- C3 (code bug), at the failing input: the middleware stores the client
IP under the session KEY "user_ip" (middleware.py line 22, subscript
assignment), but _handle_successful_login reads it back with getattr, an
ATTRIBUTE access (auth_backend.py line 61), and Django sessions do not
expose their keys as attributes; so a successful login resets the
counter, clears the lock and returns the user, yet never records the
caller's IP even though the request context carries one. -/
theorem C3_successful_login_never_records_ip :
    sessionGetItem (middleware_store_ip ⟨[], []⟩ "203.0.113.7") "user_ip"
        = some "203.0.113.7"
    ∧ sessionGetAttr (middleware_store_ip ⟨[], []⟩ "203.0.113.7") "user_ip"
        = none
    ∧ (authStep ⟨"alice", "alice@example.com", "pw", 2, none, none⟩ 5 "pw"
        ⟨middleware_store_ip ⟨[], []⟩ "203.0.113.7"⟩).1
        = some ⟨"alice", "alice@example.com", "pw", 0, none, none⟩
    ∧ (authStep ⟨"alice", "alice@example.com", "pw", 2, none, none⟩ 5 "pw"
        ⟨middleware_store_ip ⟨[], []⟩ "203.0.113.7"⟩).2.1.last_login_ip
        = none :=
  ⟨rfl, rfl, rfl, rfl⟩

/-- C1: from a fresh account (counter 0, no pending lock), three wrong
password attempts leave the counter at 3 and set locked_until to the time
of the third failure plus the 15-minute lock duration; a fourth attempt
within that window — its password p4 arbitrary, so in particular the
correct one — is refused with only the locked-account warning and with
the state unchanged: the password stage is never reached. -/
theorem C1_three_failures_lock_then_refuse (u0 : AuthUser)
    (p1 p2 p3 p4 : String) (t1 t2 t3 t4 : Nat) (req : Request)
    (h0 : u0.failed_login_attempts = 0) (hl : u0.locked_until = none)
    (hp1 : u0.password ≠ p1) (hp2 : u0.password ≠ p2) (hp3 : u0.password ≠ p3)
    (ht : t4 ≤ t3 + lockDurationMinutes) :
    authStep u0 t1 p1 req
      = (none, { u0 with failed_login_attempts := 1 },
          [LogEvent.failedAttempt u0.username 1])
    ∧ authStep { u0 with failed_login_attempts := 1 } t2 p2 req
      = (none, { u0 with failed_login_attempts := 2 },
          [LogEvent.failedAttempt u0.username 2])
    ∧ authStep { u0 with failed_login_attempts := 2 } t3 p3 req
      = (none, { u0 with failed_login_attempts := 3, locked_until := some (t3 + lockDurationMinutes) },
          [LogEvent.accountLocked u0.username,
            LogEvent.failedAttempt u0.username 3])
    ∧ authStep { u0 with failed_login_attempts := 3, locked_until := some (t3 + lockDurationMinutes) } t4 p4 req
      = (none, { u0 with failed_login_attempts := 3, locked_until := some (t3 + lockDurationMinutes) },
          [LogEvent.lockedAttempt u0.username]) := by
  have e1 : authStep u0 t1 p1 req
      = (none, { u0 with failed_login_attempts := 1 },
          [LogEvent.failedAttempt u0.username 1]) := by
    rw [authStep_no_lock u0 t1 p1 req hl, authCheck_wrong u0 t1 p1 req hp1]
    simp [handleFailedLogin, maxAttempts, h0]
  have e2 : authStep { u0 with failed_login_attempts := 1 } t2 p2 req
      = (none, { u0 with failed_login_attempts := 2 },
          [LogEvent.failedAttempt u0.username 2]) := by
    rw [authStep_no_lock { u0 with failed_login_attempts := 1 } t2 p2 req hl,
      authCheck_wrong { u0 with failed_login_attempts := 1 } t2 p2 req hp2]
    simp [handleFailedLogin, maxAttempts]
  have e3 : authStep { u0 with failed_login_attempts := 2 } t3 p3 req
      = (none, { u0 with failed_login_attempts := 3, locked_until := some (t3 + lockDurationMinutes) },
          [LogEvent.accountLocked u0.username,
            LogEvent.failedAttempt u0.username 3]) := by
    rw [authStep_no_lock { u0 with failed_login_attempts := 2 } t3 p3 req hl,
      authCheck_wrong { u0 with failed_login_attempts := 2 } t3 p3 req hp3]
    simp [handleFailedLogin, maxAttempts]
  have e4 : authStep { u0 with failed_login_attempts := 3, locked_until := some (t3 + lockDurationMinutes) } t4 p4 req
      = (none, { u0 with failed_login_attempts := 3, locked_until := some (t3 + lockDurationMinutes) },
          [LogEvent.lockedAttempt u0.username]) :=
    authStep_locked _ t4 (t3 + lockDurationMinutes) p4 req rfl
      (Nat.not_lt.mpr ht)
  exact ⟨e1, e2, e3, e4⟩

/-- C1 at a concrete input: alice, three wrong passwords at times 1, 2,
3, then the correct password at time 10 (inside the window ending at
3 + 15 = 18): refused, state unchanged. -/
theorem C1_three_failures_lock_then_refuse_witness :
    authStep ⟨"alice", "alice@example.com", "pw", 3, some 18, none⟩ 10 "pw"
        ⟨⟨[], []⟩⟩
      = (none, ⟨"alice", "alice@example.com", "pw", 3, some 18, none⟩,
          [LogEvent.lockedAttempt "alice"]) := by
  have h := C1_three_failures_lock_then_refuse
    ⟨"alice", "alice@example.com", "pw", 0, none, none⟩ "x" "x" "x" "pw"
    1 2 3 10 ⟨⟨[], []⟩⟩ rfl rfl (by decide) (by decide) (by decide) (by decide)
  exact h.2.2.2

/-- C2 counterexample: an account locked with locked_until = 15 (locked
at time 0 for 15 minutes) makes its first post-expiry attempt at time 16
with a wrong password.  The attempt is processed (the lock is cleared and
the counter reset), but the failed check immediately re-increments, so
immediately after that first post-expiry attempt the counter is 1, not 0
as the claim states. -/
theorem C2_counterexample_post_expiry_wrong_password :
    (authStep ⟨"alice", "alice@example.com", "pw", 3, some 15, none⟩ 16 "bad"
        ⟨⟨[], []⟩⟩).1 = none
    ∧ (authStep ⟨"alice", "alice@example.com", "pw", 3, some 15, none⟩ 16 "bad"
        ⟨⟨[], []⟩⟩).2.1.failed_login_attempts = 1
    ∧ ¬ (authStep ⟨"alice", "alice@example.com", "pw", 3, some 15, none⟩ 16
        "bad" ⟨⟨[], []⟩⟩).2.1.failed_login_attempts = 0 :=
  ⟨rfl, rfl, by decide⟩

/-- C2 (amended): when the lock timestamp has passed at attempt time the
guard clears locked_until and resets the counter to 0, persisting both,
before any password verification runs — the whole step equals the step on
the reset state — so the account accepts authentication attempts again at
any time after the lock timestamp; immediately after that first
post-expiry attempt the counter is 0 when its password matched and 1 when
it did not (the lock is clear either way). -/
theorem C2_lock_expiry_resets_before_check (u : AuthUser) (T now : Nat)
    (p : String) (req : Request) (hT : u.locked_until = some T)
    (h : T < now) :
    authStep u now p req
      = authStep { u with locked_until := none, failed_login_attempts := 0 } now p req
    ∧ (u.password = p →
        (authStep u now p req).1
            = some (authStep u now p req).2.1
        ∧ (authStep u now p req).2.1.failed_login_attempts = 0
        ∧ (authStep u now p req).2.1.locked_until = none)
    ∧ (u.password ≠ p →
        (authStep u now p req).1 = none
        ∧ (authStep u now p req).2.1.failed_login_attempts = 1
        ∧ (authStep u now p req).2.1.locked_until = none) := by
  have hstep : authStep u now p req
      = authCheck { u with locked_until := none, failed_login_attempts := 0 }
          now p req :=
    authStep_expired u now T p req hT h
  have hback : authStep { u with locked_until := none, failed_login_attempts := 0 } now p req
      = authCheck { u with locked_until := none, failed_login_attempts := 0 }
          now p req :=
    authStep_no_lock _ now p req rfl
  refine ⟨hstep.trans hback.symm, ?_, ?_⟩
  · intro hpw
    rw [hstep, authCheck_correct { u with locked_until := none, failed_login_attempts := 0 } now p req hpw]
    exact ⟨rfl, (handleSuccessfulLogin_fields _ req).1,
      (handleSuccessfulLogin_fields _ req).2.1⟩
  · intro hpw
    rw [hstep, authCheck_wrong { u with locked_until := none, failed_login_attempts := 0 } now p req hpw]
    refine ⟨rfl, ?_, ?_⟩
    · rw [(handleFailedLogin_spec _ now).1]
    · rw [(handleFailedLogin_spec _ now).2.1]
      simp [maxAttempts]

/-- C2 (amended) at a concrete input: alice locked until minute 15
attempts at minute 16 with the correct password: the attempt succeeds and
the counter is 0 afterwards. -/
theorem C2_lock_expiry_resets_before_check_witness :
    (authStep ⟨"alice", "alice@example.com", "pw", 3, some 15, none⟩ 16 "pw"
        ⟨⟨[], []⟩⟩).2.1.failed_login_attempts = 0 := by
  have h := C2_lock_expiry_resets_before_check
    ⟨"alice", "alice@example.com", "pw", 3, some 15, none⟩ 15 16 "pw"
    ⟨⟨[], []⟩⟩ rfl (by decide)
  exact (h.2.1 rfl).2.1

/-- One attempt preserves the lockout invariant. -/
theorem authStep_lockInv (u : AuthUser) (now : Nat) (p : String)
    (req : Request) (h : lockInv u) : lockInv (authStep u now p req).2.1 := by
  cases hT : u.locked_until with
  | none =>
    rw [authStep_no_lock u now p req hT]
    by_cases hpw : u.password = p
    · rw [authCheck_correct u now p req hpw]
      refine ⟨?_, ?_⟩
      · rw [(handleSuccessfulLogin_fields u req).1]
        exact Nat.zero_le _
      · rw [(handleSuccessfulLogin_fields u req).1]
        intro h3
        exact absurd h3 (by decide)
    · rw [authCheck_wrong u now p req hpw]
      have hf3 : u.failed_login_attempts ≠ maxAttempts := fun he => h.2 he hT
      have hle : u.failed_login_attempts + 1 ≤ maxAttempts := by
        have h1 := h.1
        simp only [maxAttempts] at h1 hf3 ⊢
        omega
      refine ⟨?_, ?_⟩
      · rw [(handleFailedLogin_spec u now).1]
        exact hle
      · intro h3
        rw [(handleFailedLogin_spec u now).1] at h3
        rw [(handleFailedLogin_spec u now).2.1, if_pos (Nat.le_of_eq h3.symm)]
        simp
  | some T =>
    by_cases hexp : T < now
    · rw [authStep_expired u now T p req hT hexp]
      by_cases hpw : u.password = p
      · rw [authCheck_correct { u with locked_until := none, failed_login_attempts := 0 } now p req hpw]
        refine ⟨?_, ?_⟩
        · rw [(handleSuccessfulLogin_fields _ req).1]
          exact Nat.zero_le _
        · rw [(handleSuccessfulLogin_fields _ req).1]
          intro h3
          exact absurd h3 (by decide)
      · rw [authCheck_wrong { u with locked_until := none, failed_login_attempts := 0 } now p req hpw]
        refine ⟨?_, ?_⟩
        · rw [(handleFailedLogin_spec _ now).1]
          exact (by decide : (0 : Nat) + 1 ≤ maxAttempts)
        · intro h3
          rw [(handleFailedLogin_spec _ now).1] at h3
          simp [maxAttempts] at h3
    · rw [authStep_locked u now T p req hT hexp]
      exact h

/-- The lockout invariant holds along every attempt sequence. -/
theorem runAttempts_lockInv (as : List Attempt) (u : AuthUser)
    (h : lockInv u) : lockInv (runAttempts u as) := by
  induction as generalizing u with
  | nil => exact h
  | cons a as ih => exact ih _ (authStep_lockInv u a.now a.password a.req h)

/-- C7: from a fresh account every attempt sequence keeps the counter in
[0, 3], and a counter of 3 always comes with a lock timestamp; the step
that moves the counter to 3 stamps locked_until with that attempt's time
plus the 15-minute duration, a strictly future time; and once the lock
timestamp has passed, the step equals the step on the state with both
fields reset together, so the reset precedes all further authentication
logic. -/
theorem C7_counter_range_and_lock_invariant :
    (∀ u0 : AuthUser, freshA u0 → ∀ as : List Attempt,
        (runAttempts u0 as).failed_login_attempts ≤ maxAttempts
        ∧ ((runAttempts u0 as).failed_login_attempts = maxAttempts →
            (runAttempts u0 as).locked_until ≠ none))
    ∧ (∀ (u : AuthUser) (now : Nat) (p : String) (req : Request),
        u.failed_login_attempts ≠ maxAttempts →
        (authStep u now p req).2.1.failed_login_attempts = maxAttempts →
          (authStep u now p req).2.1.locked_until
              = some (now + lockDurationMinutes)
          ∧ now < now + lockDurationMinutes)
    ∧ (∀ (u : AuthUser) (now T : Nat) (p : String) (req : Request),
        u.locked_until = some T → T < now →
          authStep u now p req
            = authStep { u with locked_until := none, failed_login_attempts := 0 } now p req) := by
  refine ⟨?_, ?_, ?_⟩
  · intro u0 hf as
    refine runAttempts_lockInv as u0 ⟨?_, ?_⟩
    · rw [hf.1]
      exact Nat.zero_le _
    · intro h3
      rw [hf.1] at h3
      exact absurd h3 (by decide)
  · intro u now p req hne h3
    cases hT : u.locked_until with
    | none =>
      rw [authStep_no_lock u now p req hT] at h3 ⊢
      by_cases hpw : u.password = p
      · rw [authCheck_correct u now p req hpw] at h3
        rw [(handleSuccessfulLogin_fields u req).1] at h3
        exact absurd h3 (by decide)
      · rw [authCheck_wrong u now p req hpw] at h3 ⊢
        rw [(handleFailedLogin_spec u now).1] at h3
        constructor
        · rw [(handleFailedLogin_spec u now).2.1, if_pos (Nat.le_of_eq h3.symm)]
        · simp only [lockDurationMinutes]
          omega
    | some T =>
      by_cases hexp : T < now
      · rw [authStep_expired u now T p req hT hexp] at h3 ⊢
        by_cases hpw : u.password = p
        · rw [authCheck_correct { u with locked_until := none, failed_login_attempts := 0 } now p req hpw] at h3
          rw [(handleSuccessfulLogin_fields _ req).1] at h3
          exact absurd h3 (by decide)
        · rw [authCheck_wrong { u with locked_until := none, failed_login_attempts := 0 } now p req hpw] at h3
          rw [(handleFailedLogin_spec _ now).1] at h3
          simp [maxAttempts] at h3
      · rw [authStep_locked u now T p req hT hexp] at h3
        exact absurd h3 hne
  · intro u now T p req hT hexp
    exact (authStep_expired u now T p req hT hexp).trans
      (authStep_no_lock _ now p req rfl).symm

end DK
